import Mathlib

/-!
Shallow embedding of the core of "The Pit", a credit-based task marketplace.

Translated from the repository's JavaScript sources:
* `src/routes/tasks.js`    — task lifecycle route handlers (create / claim /
  submit / validate / abandon / cancel);
* the transactions router (`recordTransaction`, found in the repository file
  that also holds the transfer endpoint) — escrow accountant;
* the disputes router — raise / resolve dispute;
* `src/reputation.js`      — reputation events, badges, notifications;
* `src/utils/sanitize.js`  — input sanitisation helpers.

Modelling conventions:
* The SQLite store is replaced by an explicit `St` record.  Agents are a total
  function from ids to records (the routes are reached only by authenticated,
  existing agents; SQL statements whose `WHERE id = ?` receives NULL match no
  row, which is modelled by `updAgentO` with a `none` id).
* The world holds the single task whose lifecycle the claims are about
  (`St.task`); transaction rows carry a `related_task` flag standing for
  `related_task_id` pointing at that task.
* JS numbers that the code treats as integers (credits, rewards) are `Int`;
  reputation points are `ℚ` (the table holds the fractional value 0.5).
* Free-text payloads that no claim inspects (transaction descriptions,
  notification titles/messages, task ids, timestamps) are elided; the fields
  that claims do inspect (amounts, balances, types, statuses, points) are
  translated exactly.
* Webhook delivery is external (fire-and-forget) and is not modelled.
-/

namespace ThePit

/-- Task status enum as stored in `tasks.status` (`open` is spelled `open_`
because `open` is a Lean keyword). -/
inductive TaskStatus
  | open_
  | claimed
  | submitted
  | completed
  | cancelled
  | disputed
  deriving DecidableEq, Repr, BEq

/-- Dispute status (`open` / `resolved`). -/
inductive DisputeStatus
  | open_
  | resolved
  deriving DecidableEq, Repr, BEq

/-- One row of the `agents` table, together with the derived statistics that
`checkAndAwardBadges` reads from the other tables (skills JSON length,
endorsement / review counts).  Those derived counts are constant during the
operations modelled here. -/
structure Agent where
  credits : Int
  reputation : ℚ
  tasks_completed : Nat
  tasks_posted : Nat
  tasks_failed : Nat
  skill_count : Nat
  endorsement_count : Nat
  reviews_given : Nat
  positive_reviews : Nat
  deriving DecidableEq, Repr

/-- The mutable columns of the one task under consideration. -/
structure TaskRec where
  requester_id : Nat
  worker_id : Option Nat
  reward : Int
  status : TaskStatus
  proof_submitted : Option String
  deriving DecidableEq, Repr

/-- One row of the `disputes` table (the task reference is implicit: all
disputes in this world concern `St.task`). -/
structure DisputeRec where
  raised_by : Nat
  reason : String
  status : DisputeStatus
  resolution : Option String
  resolved_by : Option Nat
  deriving DecidableEq, Repr

/-- One row of the `transactions` table.  `related_task` models a non-NULL
`related_task_id` (pointing at the single task of the world). -/
structure Txn where
  agent_id : Option Nat
  ty : String
  amount : Int
  balance_after : Int
  related_task : Bool
  deriving DecidableEq, Repr

/-- One row of the `reputation_events` table. -/
structure RepEvent where
  agent_id : Option Nat
  event_type : String
  points : ℚ
  deriving DecidableEq, Repr

/-- One row of the `notifications` table (title/message text elided). -/
structure Notif where
  agent_id : Option Nat
  ntype : String
  deriving DecidableEq, Repr

/-- The whole store: agents plus the tables the claims touch.  `taskLog`
models `task_log` rows as (agent, action). -/
structure St where
  agents : Nat → Agent
  task : Option TaskRec
  disputes : List DisputeRec
  txns : List Txn
  repEvents : List RepEvent
  badges : List (Nat × String)
  notifications : List Notif
  taskLog : List (Nat × String)

/-- `UPDATE agents ... WHERE id = ?`: a point update of the agent table; a
NULL id (`none`) matches no row, leaving the table unchanged. -/
def updAgentO (f : Nat → Agent) (i : Option Nat) (g : Agent → Agent) : Nat → Agent :=
  match i with
  | none => f
  | some i => fun j => if j = i then g (f j) else f j

/-! ### `src/utils/sanitize.js` -/

/-- The HTML entity map of `escapeHtml` (characters `'` and the grave accent
are written via their code points to keep them out of the Lean source). -/
def escapeChar (c : Char) : String :=
  if c = '&' then "&amp;"
  else if c = '<' then "&lt;"
  else if c = '>' then "&gt;"
  else if c = '"' then "&quot;"
  else if c = Char.ofNat 39 then "&#x27;"
  else if c = '/' then "&#x2F;"
  else if c = Char.ofNat 96 then "&#x60;"
  else if c = '=' then "&#x3D;"
  else String.singleton c

/-- `escapeHtml`: replace each special character by its entity. -/
def escapeHtml (s : String) : String :=
  String.join (s.data.map escapeChar)

/-- JS `String.prototype.trim` on the character list: drop whitespace from
both ends. -/
def trimChars (l : List Char) : List Char :=
  ((l.dropWhile Char.isWhitespace).reverse.dropWhile Char.isWhitespace).reverse

/-- `sanitizeString(str, { maxLength })`: remove null bytes, trim, cap the
length, then escape HTML. -/
def sanitizeString (s : String) (maxLength : Option Nat) : String :=
  let r := trimChars (s.data.filter (fun c => c ≠ Char.ofNat 0))
  let r := match maxLength with
    | some m => if m < r.length then r.take m else r
    | none => r
  escapeHtml (String.mk r)

/-- `sanitizeTitle` (max length 200). -/
def sanitizeTitle (s : String) : String := sanitizeString s (some 200)

/-- `sanitizeDescription` (max length 10000). -/
def sanitizeDescription (s : String) : String := sanitizeString s (some 10000)

/-- `sanitizeProof` (max length 50000). -/
def sanitizeProof (s : String) : String := sanitizeString s (some 50000)

/-- `sanitizeInt(value, { min, max, default })`.  `value = none` models a
present but non-numeric input (`parseInt` gives `NaN`); `some n` a value that
parses to the integer `n`.  A parsed value below `min` is returned as `min`,
above `max` as `max`. -/
def sanitizeInt (value : Option Int) (omin omax odflt : Option Int) : Int :=
  match value with
  | none => odflt.getD 0
  | some parsed =>
    match omin, omax with
    | some m, some M => if parsed < m then m else if M < parsed then M else parsed
    | some m, none => if parsed < m then m else parsed
    | none, some M => if M < parsed then M else parsed
    | none, none => parsed

/-! ### `src/reputation.js` -/

/-- The static `REPUTATION_EVENTS` table (base point values; the description
strings are elided). -/
def REPUTATION_EVENTS : String → Option ℚ
  | "TASK_COMPLETED" => some 3
  | "TASK_COMPLETED_EARLY" => some 1
  | "EXCELLENT_REVIEW" => some 2
  | "GOOD_REVIEW" => some 1
  | "SKILL_ENDORSED" => some (1 / 2)
  | "DISPUTE_WON" => some 2
  | "FIRST_TASK" => some 5
  | "TASK_STREAK_5" => some 3
  | "TASK_STREAK_10" => some 5
  | "HIGH_VALUE_TASK" => some 2
  | "TASK_REJECTED" => some (-5)
  | "TASK_ABANDONED" => some (-2)
  | "DISPUTE_LOST" => some (-3)
  | "POOR_REVIEW" => some (-2)
  | "DEADLINE_MISSED" => some (-3)
  | "INACTIVE_CLAIM" => some (-1)
  | _ => none

/-- The static `BADGES` table: badge key and its predicate over the agent's
statistics snapshot. -/
def BADGES : List (String × (Agent → Bool)) :=
  [("newcomer", fun _ => true),
   ("first_task", fun a => decide (1 ≤ a.tasks_completed)),
   ("task_master_10", fun a => decide (10 ≤ a.tasks_completed)),
   ("task_master_50", fun a => decide (50 ≤ a.tasks_completed)),
   ("task_master_100", fun a => decide (100 ≤ a.tasks_completed)),
   ("employer_10", fun a => decide (10 ≤ a.tasks_posted)),
   ("employer_50", fun a => decide (50 ≤ a.tasks_posted)),
   ("wealthy", fun a => decide (1000 ≤ a.credits)),
   ("elite_wealth", fun a => decide (10000 ≤ a.credits)),
   ("trusted", fun a => decide (75 ≤ a.reputation)),
   ("legendary", fun a => decide (90 ≤ a.reputation)),
   ("perfect", fun a => decide (10 ≤ a.tasks_completed ∧ a.tasks_failed = 0)),
   ("skilled_5", fun a => decide (5 ≤ a.skill_count)),
   ("endorsed", fun a => decide (1 ≤ a.endorsement_count)),
   ("highly_endorsed", fun a => decide (10 ≤ a.endorsement_count)),
   ("reviewer", fun a => decide (10 ≤ a.reviews_given)),
   ("well_reviewed", fun a => decide (10 ≤ a.positive_reviews))]

/-- `createNotification(agentId, type, ...)`: append a notification row. -/
def createNotification (st : St) (agentId : Option Nat) (ntype : String) : St :=
  { st with notifications := st.notifications ++ [{ agent_id := agentId, ntype := ntype }] }

/-- The body of the badge loop of `checkAndAwardBadges`: award (and notify)
one badge when it is not yet held and its predicate holds on the snapshot.
(The conditional insert is written field-wise — only the badge and
notification tables depend on the condition — so that the embedding stays
lazily computable in the other fields.) -/
def awardStep (stats : Agent) (existing : List String) (aid : Nat) (acc : St)
    (bd : String × (Agent → Bool)) : St :=
  { acc with
    badges :=
      if !(existing.contains bd.1) && bd.2 stats then acc.badges ++ [(aid, bd.1)]
      else acc.badges,
    notifications :=
      if !(existing.contains bd.1) && bd.2 stats then
        acc.notifications ++ [{ agent_id := some aid, ntype := "badge" }]
      else acc.notifications }

/-- `checkAndAwardBadges(agentId)`: snapshot the stats and the existing badge
list, then walk the badge table awarding (and notifying) each badge that is
not yet held and whose predicate holds.  A NULL/unknown agent returns
immediately without touching the store. -/
def checkAndAwardBadges (st : St) (agentId : Option Nat) : St :=
  match agentId with
  | none => st
  | some aid =>
    let stats := st.agents aid
    let existing := (st.badges.filter (fun b => b.1 == aid)).map Prod.snd
    BADGES.foldl (awardStep stats existing aid) st

/-- `recordReputationEvent(agentId, eventType, options)`: unknown event types
return `null` without any state change; otherwise the event row is inserted,
the agent's reputation is set to `MAX(0, MIN(100, reputation + points))`,
badges are re-checked, and a notification is created when `|points| ≥ 2`.
The multiplier defaults to 1 via JS `||` (so an explicit 0 also becomes 1). -/
def recordReputationEvent (st : St) (agentId : Option Nat) (eventType : String)
    (mult : Option ℚ) : Option ℚ × St :=
  match REPUTATION_EVENTS eventType with
  | none => (none, st)
  | some base =>
    let multiplier : ℚ := match mult with
      | none => 1
      | some m => if m = 0 then 1 else m
    let points := base * multiplier
    let st1 : St :=
      { st with
        repEvents := st.repEvents ++
          [{ agent_id := agentId, event_type := eventType, points := points }],
        agents := updAgentO st.agents agentId
          (fun a => { a with reputation := max 0 (min 100 (a.reputation + points)) }) }
    let st2 := checkAndAwardBadges st1 agentId
    let st3 : St :=
      { st2 with
        notifications :=
          if 2 ≤ |points| then
            st2.notifications ++ [{ agent_id := agentId, ntype := "reputation" }]
          else st2.notifications }
    (some points, st3)

/-! ### Escrow accountant: `recordTransaction` -/

/-- `recordTransaction(agentId, type, amount, description, options)`: read the
agent's current credits (0 for a missing/NULL agent, from `agent?.credits ||
0`), store `balance_after = current + amount`, and append the row.  It never
mutates any balance itself. -/
def recordTransaction (st : St) (agentId : Option Nat) (ty : String)
    (amount : Int) (relatedTask : Bool) : St :=
  let current : Int := match agentId with
    | some a => (st.agents a).credits
    | none => 0
  { st with txns := st.txns ++
      [{ agent_id := agentId, ty := ty, amount := amount,
         balance_after := current + amount, related_task := relatedTask }] }

/-! ### Task lifecycle route handlers (`src/routes/tasks.js`) -/

/-- The typed errors of the route handlers (each corresponds to one early
`res.status(4xx)` return). -/
inductive ApiErr
  | missingFields
  | invalidTitle
  | invalidDescription
  | rewardTooLow
  | insufficientCredits
  | notFound
  | forbidden
  | invalidState
  | cannotClaimOwn
  | conflict
  | proofRequired
  | approvalMissing
  | disputeExists
  deriving DecidableEq, Repr

/-- Request body of `POST /tasks` (skills / proof kind / deadline elided: they
do not feed any claim).  `reward = none` models a present non-numeric value
(truthy, parses to NaN); `some n` a numeric value. -/
structure CreateInput where
  title : String
  description : String
  reward : Option Int
  deriving DecidableEq, Repr

/-- JS truthiness of the raw reward: the number 0 is falsy, every other
number and every non-empty non-numeric string is truthy. -/
def rawRewardTruthy : Option Int → Bool
  | none => true
  | some n => n != 0

/-- `POST /tasks` (create task): validate, debit the escrow from the
requester, insert the task in `open` state, log, record the `task_escrow`
transaction, re-check badges. -/
def createTask (st : St) (agentId : Nat) (inp : CreateInput) :
    Except ApiErr Unit × St :=
  let agent := st.agents agentId
  if inp.title = "" ∨ inp.description = "" ∨ rawRewardTruthy inp.reward = false then
    (.error .missingFields, st)
  else
    let title := sanitizeTitle inp.title
    let description := sanitizeDescription inp.description
    let reward := sanitizeInt inp.reward (some 1) (some 1000000) none
    if title.length < 1 then (.error .invalidTitle, st)
    else if description.length < 1 then (.error .invalidDescription, st)
    else if reward < 1 then (.error .rewardTooLow, st)
    else if agent.credits < reward then (.error .insufficientCredits, st)
    else
      let st1 : St :=
        { st with
          agents := updAgentO st.agents (some agentId)
            (fun a => { a with credits := a.credits - reward,
                               tasks_posted := a.tasks_posted + 1 }),
          task := some { requester_id := agentId, worker_id := none,
                         reward := reward, status := .open_,
                         proof_submitted := none },
          taskLog := st.taskLog ++ [(agentId, "created")] }
      let st2 := recordTransaction st1 (some agentId) "task_escrow" (-reward) true
      let st3 := checkAndAwardBadges st2 (some agentId)
      (.ok (), st3)

/-- `POST /tasks/:id/claim`: precondition checks on the fetched row, then the
conditional `UPDATE ... WHERE id = ? AND status = 'open'`, then the read-back
verification that returns 409 Conflict when the caller did not win. -/
def claimTask (st : St) (agentId : Nat) : Except ApiErr Unit × St :=
  match st.task with
  | none => (.error .notFound, st)
  | some task =>
    if task.status ≠ .open_ then (.error .invalidState, st)
    else if task.requester_id = agentId then (.error .cannotClaimOwn, st)
    else
      let task' := if task.status = .open_ then
          { task with status := .claimed, worker_id := some agentId }
        else task
      let st1 : St := { st with task := some task' }
      if task'.status = .claimed ∧ task'.worker_id = some agentId then
        let st2 : St := { st1 with taskLog := st1.taskLog ++ [(agentId, "claimed")] }
        let st3 := createNotification st2 (some task.requester_id) "task_claimed"
        (.ok (), st3)
      else (.error .conflict, st1)

/-- `POST /tasks/:id/submit`: only the assigned worker of a `claimed` task may
submit; stores the sanitised proof and moves to `submitted`. -/
def submitWork (st : St) (agentId : Nat) (rawProof : String) :
    Except ApiErr Unit × St :=
  if rawProof = "" then (.error .proofRequired, st)
  else
    let proof := sanitizeProof rawProof
    match st.task with
    | none => (.error .notFound, st)
    | some task =>
      if task.worker_id ≠ some agentId then (.error .forbidden, st)
      else if task.status ≠ .claimed then (.error .invalidState, st)
      else
        (.ok (),
          { st with
            task := some { task with status := .submitted,
                                     proof_submitted := some proof },
            taskLog := st.taskLog ++ [(agentId, "submitted")] })

/-- `POST /tasks/:id/validate`: requester decision on a `submitted` task.
Approve: pay the worker, bump `tasks_completed`, complete the task, record
the `task_payment` transaction, emit `TASK_COMPLETED` (+`HIGH_VALUE_TASK`
when reward ≥ 50, +`FIRST_TASK` when the fresh `tasks_completed` equals 1),
re-check badges, notify.  Reject: add the reward back to the requester's
credits, bump the worker's `tasks_failed`, reset the task to `open` clearing
worker and proof, record the `escrow_release` transaction, emit
`TASK_REJECTED`, notify. -/
def validateWork (st : St) (agentId : Nat) (approved : Option Bool) :
    Except ApiErr Unit × St :=
  match approved with
  | none => (.error .approvalMissing, st)
  | some app =>
    match st.task with
    | none => (.error .notFound, st)
    | some task =>
      if task.requester_id ≠ agentId then (.error .forbidden, st)
      else if task.status ≠ .submitted then (.error .invalidState, st)
      else if app then
        let st1 : St :=
          { st with
            agents := updAgentO st.agents task.worker_id
              (fun a => { a with credits := a.credits + task.reward,
                                 tasks_completed := a.tasks_completed + 1 }) }
        let st2 : St :=
          { st1 with task := some { task with status := .completed },
                     taskLog := st1.taskLog ++ [(agentId, "approved")] }
        let st3 := recordTransaction st2 task.worker_id "task_payment" task.reward true
        let st4 := (recordReputationEvent st3 task.worker_id "TASK_COMPLETED" none).2
        let st5 := if 50 ≤ task.reward then
            (recordReputationEvent st4 task.worker_id "HIGH_VALUE_TASK" none).2
          else st4
        let st6 := match task.worker_id with
          | some w =>
            if (st5.agents w).tasks_completed = 1 then
              (recordReputationEvent st5 (some w) "FIRST_TASK" none).2
            else st5
          | none => st5
        let st7 := checkAndAwardBadges st6 task.worker_id
        let st8 := createNotification st7 task.worker_id "payment"
        (.ok (), st8)
      else
        let st1 : St :=
          { st with
            agents := updAgentO st.agents (some task.requester_id)
              (fun a => { a with credits := a.credits + task.reward }) }
        let st2 : St :=
          { st1 with
            agents := updAgentO st1.agents task.worker_id
              (fun a => { a with tasks_failed := a.tasks_failed + 1 }) }
        let st3 : St :=
          { st2 with
            task := some
              { task with status := .open_, worker_id := none, proof_submitted := none },
            taskLog := st2.taskLog ++ [(agentId, "rejected")] }
        let st4 := recordTransaction st3 (some task.requester_id) "escrow_release"
          task.reward true
        let st5 := (recordReputationEvent st4 task.worker_id "TASK_REJECTED" none).2
        let st6 := createNotification st5 task.worker_id "rejection"
        (.ok (), st6)

/-! ### Dispute route handlers -/

/-- `POST /disputes`: only a party of a `submitted`/`completed` task may raise
a dispute, and only when no open dispute exists for the task; the task moves
to `disputed` and the other party is notified. -/
def raiseDispute (st : St) (agentId : Nat) (rawReason : String) :
    Except ApiErr Unit × St :=
  if rawReason = "" then (.error .missingFields, st)
  else
    let reason := sanitizeString rawReason (some 2000)
    match st.task with
    | none => (.error .notFound, st)
    | some task =>
      if task.requester_id ≠ agentId ∧ task.worker_id ≠ some agentId then
        (.error .forbidden, st)
      else if ¬(task.status = .submitted ∨ task.status = .completed) then
        (.error .invalidState, st)
      else if st.disputes.any (fun d => d.status == DisputeStatus.open_) then
        (.error .disputeExists, st)
      else
        let st1 : St :=
          { st with
            disputes := st.disputes ++
              [{ raised_by := agentId, reason := reason, status := .open_,
                 resolution := none, resolved_by := none }],
            task := some { task with status := .disputed } }
        let otherParty : Option Nat :=
          if task.requester_id = agentId then task.worker_id
          else some task.requester_id
        let st2 := match otherParty with
          | some p => createNotification st1 (some p) "dispute"
          | none => st1
        (.ok (), st2)

/-- The closed decision codes accepted by `POST /disputes/:id/resolve`. -/
inductive Decision
  | favor_requester
  | favor_worker
  | split
  | cancel
  deriving DecidableEq, Repr

/-- The decision code as the string stored in `disputes.resolution` when the
caller supplies no free-text resolution. -/
def decisionStr : Decision → String
  | .favor_requester => "favor_requester"
  | .favor_worker => "favor_worker"
  | .split => "split"
  | .cancel => "cancel"

/-- `POST /disputes/:id/resolve` (dispute at index `dIdx` of the dispute
table, joined with the world's task).  Authorisation: an involved party
(raiser / requester / worker) or an uninvolved arbitrator with reputation
≥ 80.  The decision branch moves credits and records transactions and
reputation events; then the dispute is marked resolved, the task status set,
and an uninvolved arbitrator is paid `min(10, floor(reward * 0.05))` when
positive (for the integer rewards the API admits, `Math.floor(reward * 0.05)`
computed on doubles equals `⌊reward / 20⌋`, written `Int.fdiv reward 20`).
`Math.floor(reward / 2)` is likewise `Int.fdiv reward 2`. -/
def resolveDispute (st : St) (agentId : Nat) (dIdx : Nat) (decision : Decision)
    (resolution : Option String) : Except ApiErr Unit × St :=
  match st.disputes.get? dIdx, st.task with
  | some d, some task =>
    if d.status ≠ .open_ then (.error .invalidState, st)
    else
      let isInvolved : Bool :=
        (agentId == d.raised_by) || (agentId == task.requester_id) ||
          (task.worker_id == some agentId)
      let isArbitrator : Bool :=
        decide (80 ≤ (st.agents agentId).reputation) && !isInvolved
      if !isInvolved && !isArbitrator then (.error .forbidden, st)
      else
        let reward := task.reward
        let stA : St :=
          match decision with
          | .favor_worker =>
            match task.worker_id with
            | some w =>
              let s1 : St :=
                { st with
                  agents := updAgentO st.agents (some w)
                    (fun a => { a with credits := a.credits + reward,
                                       tasks_completed := a.tasks_completed + 1 }) }
              let s2 := recordTransaction s1 (some w) "task_payment" reward true
              let s3 := (recordReputationEvent s2 (some w) "DISPUTE_WON" none).2
              (recordReputationEvent s3 (some task.requester_id) "DISPUTE_LOST" none).2
            | none => st
          | .favor_requester =>
            let s1 : St :=
              { st with
                agents := updAgentO st.agents (some task.requester_id)
                  (fun a => { a with credits := a.credits + reward }) }
            let s2 := recordTransaction s1 (some task.requester_id) "refund" reward true
            let s3 := (recordReputationEvent s2 (some task.requester_id) "DISPUTE_WON" none).2
            match task.worker_id with
            | some w =>
              let s4 := (recordReputationEvent s3 (some w) "DISPUTE_LOST" none).2
              { s4 with
                agents := updAgentO s4.agents (some w)
                  (fun a => { a with tasks_failed := a.tasks_failed + 1 }) }
            | none => s3
          | .split =>
            let halfReward := Int.fdiv reward 2
            let s1 : St :=
              { st with
                agents := updAgentO st.agents (some task.requester_id)
                  (fun a => { a with credits := a.credits + halfReward }) }
            let s2 := recordTransaction s1 (some task.requester_id) "refund_partial"
              halfReward true
            match task.worker_id with
            | some w =>
              let s3 : St :=
                { s2 with
                  agents := updAgentO s2.agents (some w)
                    (fun a => { a with credits := a.credits + (reward - halfReward) }) }
              recordTransaction s3 (some w) "task_payment_partial" (reward - halfReward) true
            | none => s2
          | .cancel =>
            let s1 : St :=
              { st with
                agents := updAgentO st.agents (some task.requester_id)
                  (fun a => { a with credits := a.credits + reward }) }
            recordTransaction s1 (some task.requester_id) "refund" reward true
        let taskStatus : TaskStatus :=
          match decision with
          | .favor_worker => .completed
          | .favor_requester => .cancelled
          | .split => .completed
          | .cancel => .cancelled
        let stB : St :=
          { stA with
            disputes := stA.disputes.set dIdx
              { d with status := .resolved,
                       resolution := some (resolution.getD (decisionStr decision)),
                       resolved_by := some agentId },
            task := some { task with status := taskStatus } }
        let stC : St :=
          if isArbitrator then
            let arbitrationReward := min 10 (Int.fdiv reward 20)
            if 0 < arbitrationReward then
              let s1 : St :=
                { stB with
                  agents := updAgentO stB.agents (some agentId)
                    (fun a => { a with credits := a.credits + arbitrationReward }) }
              recordTransaction s1 (some agentId) "arbitration_reward"
                arbitrationReward true
            else stB
          else stB
        let parties : List Nat := [some task.requester_id, task.worker_id].filterMap id
        let stD : St :=
          { stC with notifications := stC.notifications ++
              parties.map (fun p => { agent_id := some p, ntype := "dispute_resolved" }) }
        (.ok (), stD)
  | _, _ => (.error .notFound, st)

/-! ### Interleaving semantics of the claim race

`POST /tasks/:id/claim` performs three database accesses, each individually
atomic in SQLite: (1) read the row and check the preconditions, (2) the
conditional `UPDATE ... WHERE id = ? AND status = 'open'`, (3) the read-back
verification that yields 409 Conflict on mismatch.  Concurrent callers may
interleave between these accesses.  `ClaimRace` models one task record and
per-caller program counters; a schedule is a list of caller ids, each
occurrence running that caller's next atomic access. -/

namespace ClaimRace

/-- Program counter of one claim call: before the precondition read, after it,
after the conditional update, or finished with the route's outcome
(success / 409 conflict / 400 not-open / 400 own-task). -/
inductive Phase
  | ready
  | checked
  | updated
  | finSuccess
  | finConflict
  | finNotOpen
  | finOwnTask
  deriving DecidableEq, Repr

/-- The interleaved system: the task row plus each caller's phase. -/
structure CState where
  task : TaskRec
  ph : Nat → Phase

/-- Set caller `i`'s phase. -/
def setPh (s : CState) (i : Nat) (p : Phase) : CState :=
  { s with ph := fun j => if j = i then p else s.ph j }

/-- The conditional `UPDATE tasks SET status='claimed', worker_id=? WHERE id=?
AND status='open'` as one atomic step. -/
def condClaimUpdate (i : Nat) (t : TaskRec) : TaskRec :=
  if t.status = .open_ then { t with status := .claimed, worker_id := some i } else t

/-- One atomic database access of caller `i`'s claim call. -/
def stepOf (i : Nat) (s : CState) : CState :=
  match s.ph i with
  | .ready =>
    if s.task.status ≠ .open_ then setPh s i .finNotOpen
    else if s.task.requester_id = i then setPh s i .finOwnTask
    else setPh s i .checked
  | .checked => { task := condClaimUpdate i s.task, ph := fun j => if j = i then .updated else s.ph j }
  | .updated =>
    if s.task.status = .claimed ∧ s.task.worker_id = some i then setPh s i .finSuccess
    else setPh s i .finConflict
  | _ => s

/-- Run a schedule (list of caller ids; each occurrence runs that caller's
next atomic access). -/
def run (sched : List Nat) (s : CState) : CState :=
  sched.foldl (fun s i => stepOf i s) s

/-- The outcome a caller starting from phase `p` reaches when the task is
permanently `claimed` by `w`. -/
def finalPhase (w i : Nat) : Phase → Phase
  | .ready => .finNotOpen
  | .checked => if i = w then .finSuccess else .finConflict
  | .updated => if i = w then .finSuccess else .finConflict
  | p => p

/-- How many more steps a caller in phase `p` needs to finish. -/
def stepsNeeded : Phase → Nat
  | .ready => 1
  | .checked => 2
  | .updated => 1
  | _ => 0

/-- The initial race state: the task `open` and unassigned, every caller about
to perform its precondition read. -/
def initRace (r : Nat) (reward : Int) : CState :=
  { task := { requester_id := r, worker_id := none, reward := reward,
              status := .open_, proof_submitted := none },
    ph := fun _ => .ready }

end ClaimRace

/-- Sum of the signed amounts of the transactions related to the task. -/
def taskTxnSum (st : St) : Int :=
  ((st.txns.filter (fun t => t.related_task)).map (fun t => t.amount)).sum

/-- A fresh agent row: the schema defaults (100 credits, reputation 50, zero
counters) with no skills / endorsements / reviews. -/
def freshAgent : Agent :=
  { credits := 100, reputation := 50, tasks_completed := 0, tasks_posted := 0,
    tasks_failed := 0, skill_count := 0, endorsement_count := 0,
    reviews_given := 0, positive_reviews := 0 }

/-- An initial store with only fresh agents and no task. -/
def initSt : St :=
  { agents := fun _ => freshAgent, task := none, disputes := [], txns := [],
    repEvents := [], badges := [], notifications := [], taskLog := [] }

/-! ### Preservation lemmas for the store operations -/

theorem awardStep_agents (stats : Agent) (ex : List String) (aid : Nat) (acc : St)
    (bd : String × (Agent → Bool)) : (awardStep stats ex aid acc bd).agents = acc.agents := rfl

theorem awardStep_task (stats : Agent) (ex : List String) (aid : Nat) (acc : St)
    (bd : String × (Agent → Bool)) : (awardStep stats ex aid acc bd).task = acc.task := rfl

theorem awardStep_txns (stats : Agent) (ex : List String) (aid : Nat) (acc : St)
    (bd : String × (Agent → Bool)) : (awardStep stats ex aid acc bd).txns = acc.txns := rfl

theorem awardStep_repEvents (stats : Agent) (ex : List String) (aid : Nat) (acc : St)
    (bd : String × (Agent → Bool)) : (awardStep stats ex aid acc bd).repEvents = acc.repEvents := rfl

theorem awardStep_disputes (stats : Agent) (ex : List String) (aid : Nat) (acc : St)
    (bd : String × (Agent → Bool)) : (awardStep stats ex aid acc bd).disputes = acc.disputes := rfl

theorem foldl_awardStep_agents (stats : Agent) (ex : List String) (aid : Nat)
    (l : List (String × (Agent → Bool))) : ∀ st : St,
    (l.foldl (awardStep stats ex aid) st).agents = st.agents := by
  induction l with
  | nil => intro st; rfl
  | cons b t ih =>
    intro st
    rw [List.foldl_cons, ih, awardStep_agents]

theorem foldl_awardStep_task (stats : Agent) (ex : List String) (aid : Nat)
    (l : List (String × (Agent → Bool))) : ∀ st : St,
    (l.foldl (awardStep stats ex aid) st).task = st.task := by
  induction l with
  | nil => intro st; rfl
  | cons b t ih =>
    intro st
    rw [List.foldl_cons, ih, awardStep_task]

theorem foldl_awardStep_txns (stats : Agent) (ex : List String) (aid : Nat)
    (l : List (String × (Agent → Bool))) : ∀ st : St,
    (l.foldl (awardStep stats ex aid) st).txns = st.txns := by
  induction l with
  | nil => intro st; rfl
  | cons b t ih =>
    intro st
    rw [List.foldl_cons, ih, awardStep_txns]

theorem foldl_awardStep_repEvents (stats : Agent) (ex : List String) (aid : Nat)
    (l : List (String × (Agent → Bool))) : ∀ st : St,
    (l.foldl (awardStep stats ex aid) st).repEvents = st.repEvents := by
  induction l with
  | nil => intro st; rfl
  | cons b t ih =>
    intro st
    rw [List.foldl_cons, ih, awardStep_repEvents]

theorem foldl_awardStep_disputes (stats : Agent) (ex : List String) (aid : Nat)
    (l : List (String × (Agent → Bool))) : ∀ st : St,
    (l.foldl (awardStep stats ex aid) st).disputes = st.disputes := by
  induction l with
  | nil => intro st; rfl
  | cons b t ih =>
    intro st
    rw [List.foldl_cons, ih, awardStep_disputes]

theorem checkAndAwardBadges_agents (st : St) (aid : Option Nat) :
    (checkAndAwardBadges st aid).agents = st.agents := by
  cases aid with
  | none => rfl
  | some a => exact foldl_awardStep_agents _ _ _ _ st

theorem checkAndAwardBadges_task (st : St) (aid : Option Nat) :
    (checkAndAwardBadges st aid).task = st.task := by
  cases aid with
  | none => rfl
  | some a => exact foldl_awardStep_task _ _ _ _ st

theorem checkAndAwardBadges_txns (st : St) (aid : Option Nat) :
    (checkAndAwardBadges st aid).txns = st.txns := by
  cases aid with
  | none => rfl
  | some a => exact foldl_awardStep_txns _ _ _ _ st

theorem checkAndAwardBadges_repEvents (st : St) (aid : Option Nat) :
    (checkAndAwardBadges st aid).repEvents = st.repEvents := by
  cases aid with
  | none => rfl
  | some a => exact foldl_awardStep_repEvents _ _ _ _ st

theorem checkAndAwardBadges_disputes (st : St) (aid : Option Nat) :
    (checkAndAwardBadges st aid).disputes = st.disputes := by
  cases aid with
  | none => rfl
  | some a => exact foldl_awardStep_disputes _ _ _ _ st

theorem recordTransaction_agents (st : St) (a : Option Nat) (ty : String)
    (amt : Int) (rel : Bool) : (recordTransaction st a ty amt rel).agents = st.agents := rfl

theorem recordTransaction_task (st : St) (a : Option Nat) (ty : String)
    (amt : Int) (rel : Bool) : (recordTransaction st a ty amt rel).task = st.task := rfl

theorem recordTransaction_repEvents (st : St) (a : Option Nat) (ty : String)
    (amt : Int) (rel : Bool) : (recordTransaction st a ty amt rel).repEvents = st.repEvents := rfl

theorem recordTransaction_disputes (st : St) (a : Option Nat) (ty : String)
    (amt : Int) (rel : Bool) : (recordTransaction st a ty amt rel).disputes = st.disputes := rfl

theorem recordTransaction_txns (st : St) (a : Option Nat) (ty : String)
    (amt : Int) (rel : Bool) :
    (recordTransaction st a ty amt rel).txns
      = st.txns ++ [{ agent_id := a, ty := ty, amount := amt, balance_after := (match a with | some i => (st.agents i).credits | none => 0) + amt, related_task := rel }] := rfl

theorem updAgentO_credits_of_reputation_update (f : Nat → Agent) (i : Option Nat)
    (p : ℚ) (j : Nat) :
    (updAgentO f i (fun a => { a with reputation := max 0 (min 100 (a.reputation + p)) }) j).credits
      = (f j).credits := by
  cases i with
  | none => rfl
  | some i =>
    unfold updAgentO
    by_cases h : j = i <;> simp [h]

theorem updAgentO_tasks_completed_of_reputation_update (f : Nat → Agent) (i : Option Nat)
    (p : ℚ) (j : Nat) :
    (updAgentO f i (fun a => { a with reputation := max 0 (min 100 (a.reputation + p)) }) j).tasks_completed
      = (f j).tasks_completed := by
  cases i with
  | none => rfl
  | some i =>
    unfold updAgentO
    by_cases h : j = i <;> simp [h]

/-- The effective multiplier of `recordReputationEvent` (JS `options.multiplier
|| 1`). -/
def effMult (m : Option ℚ) : ℚ :=
  match m with
  | none => 1
  | some q => if q = 0 then 1 else q

theorem recordReputationEvent_task (st : St) (a : Option Nat) (ty : String) (m : Option ℚ) :
    ((recordReputationEvent st a ty m).2).task = st.task := by
  unfold recordReputationEvent
  cases h : REPUTATION_EVENTS ty with
  | none => rfl
  | some base =>
    show (checkAndAwardBadges _ _).task = _
    rw [checkAndAwardBadges_task]

theorem recordReputationEvent_txns (st : St) (a : Option Nat) (ty : String) (m : Option ℚ) :
    ((recordReputationEvent st a ty m).2).txns = st.txns := by
  unfold recordReputationEvent
  cases h : REPUTATION_EVENTS ty with
  | none => rfl
  | some base =>
    show (checkAndAwardBadges _ _).txns = _
    rw [checkAndAwardBadges_txns]

theorem recordReputationEvent_disputes (st : St) (a : Option Nat) (ty : String) (m : Option ℚ) :
    ((recordReputationEvent st a ty m).2).disputes = st.disputes := by
  unfold recordReputationEvent
  cases h : REPUTATION_EVENTS ty with
  | none => rfl
  | some base =>
    show (checkAndAwardBadges _ _).disputes = _
    rw [checkAndAwardBadges_disputes]

theorem recordReputationEvent_credits (st : St) (a : Option Nat) (ty : String)
    (m : Option ℚ) (j : Nat) :
    (((recordReputationEvent st a ty m).2).agents j).credits = (st.agents j).credits := by
  unfold recordReputationEvent
  cases h : REPUTATION_EVENTS ty with
  | none => rfl
  | some base =>
    show ((checkAndAwardBadges _ a).agents j).credits = _
    rw [checkAndAwardBadges_agents]
    exact updAgentO_credits_of_reputation_update _ _ _ _

theorem recordReputationEvent_tasks_completed (st : St) (a : Option Nat) (ty : String)
    (m : Option ℚ) (j : Nat) :
    (((recordReputationEvent st a ty m).2).agents j).tasks_completed
      = (st.agents j).tasks_completed := by
  unfold recordReputationEvent
  cases h : REPUTATION_EVENTS ty with
  | none => rfl
  | some base =>
    show ((checkAndAwardBadges _ a).agents j).tasks_completed = _
    rw [checkAndAwardBadges_agents]
    exact updAgentO_tasks_completed_of_reputation_update _ _ _ _

theorem recordReputationEvent_repEvents_known (st : St) (a : Option Nat) (ty : String)
    (m : Option ℚ) (base : ℚ) (h : REPUTATION_EVENTS ty = some base) :
    ((recordReputationEvent st a ty m).2).repEvents
      = st.repEvents ++ [{ agent_id := a, event_type := ty, points := base * effMult m }] := by
  unfold recordReputationEvent
  rw [h]
  show (checkAndAwardBadges _ _).repEvents = _
  rw [checkAndAwardBadges_repEvents]
  rfl

theorem recordReputationEvent_agents (st : St) (a : Option Nat) (ty : String)
    (m : Option ℚ) (base : ℚ) (h : REPUTATION_EVENTS ty = some base) :
    ((recordReputationEvent st a ty m).2).agents
      = updAgentO st.agents a
          (fun ag => { ag with reputation := max 0 (min 100 (ag.reputation + base * effMult m)) }) := by
  unfold recordReputationEvent
  rw [h]
  show (checkAndAwardBadges _ a).agents = _
  rw [checkAndAwardBadges_agents]
  rfl

/-! ### Claim theorems -/

/-- All agents' reputation scores lie in the interval [0, 100]. -/
def repInRange (st : St) : Prop :=
  ∀ a : Nat, 0 ≤ (st.agents a).reputation ∧ (st.agents a).reputation ≤ 100

/-- Fold a list of reputation events (target agent, event type, multiplier)
through `recordReputationEvent`, keeping only the state. -/
def applyRepEvents (st : St) (evs : List (Option Nat × String × Option ℚ)) : St :=
  evs.foldl (fun s e => (recordReputationEvent s e.1 e.2.1 e.2.2).2) st

theorem recordReputationEvent_repInRange (st : St) (a : Option Nat) (ty : String)
    (m : Option ℚ) (h : repInRange st) : repInRange ((recordReputationEvent st a ty m).2) := by
  intro j
  cases hETy : REPUTATION_EVENTS ty with
  | none =>
    unfold recordReputationEvent
    rw [hETy]
    exact h j
  | some base =>
    rw [recordReputationEvent_agents st a ty m base hETy]
    cases a with
    | none => exact h j
    | some i =>
      unfold updAgentO
      by_cases hj : j = i
      · simp only [hj, if_pos rfl]
        constructor
        · exact le_max_left 0 _
        · exact max_le (by norm_num) (min_le_left 100 _)
      · simp only [if_neg hj]
        exact h j

/-- C6: after any sequence of recorded reputation events — any event types and
multipliers — every agent's reputation score stays within [0, 100] (given that
it starts there, as the schema default 50 does), and each known event updates
the target's score to exactly `clamp(old_score + base * multiplier, 0, 100)`
(an unknown event type changes no score). -/
theorem reputation_always_clamped (evs : List (Option Nat × String × Option ℚ))
    (st : St) (h : repInRange st) :
    repInRange (applyRepEvents st evs) ∧
    (∀ (s : St) (i : Nat) (ty : String) (m : Option ℚ) (base : ℚ),
      REPUTATION_EVENTS ty = some base →
      (((recordReputationEvent s (some i) ty m).2).agents i).reputation
        = max 0 (min 100 ((s.agents i).reputation + base * effMult m))) := by
  constructor
  · induction evs generalizing st with
    | nil => exact h
    | cons e t ih =>
      exact ih _ (recordReputationEvent_repInRange st e.1 e.2.1 e.2.2 h)
  · intro s i ty m base hETy
    rw [recordReputationEvent_agents s (some i) ty m base hETy]
    unfold updAgentO
    simp

/-- Witness for C6 at a concrete input: one `TASK_COMPLETED` event applied to
the fresh store. -/
theorem reputation_always_clamped_witness :
    repInRange (applyRepEvents initSt [(some 0, "TASK_COMPLETED", none)]) :=
  (reputation_always_clamped [(some 0, "TASK_COMPLETED", none)] initSt
    (fun a => ⟨by norm_num [initSt, freshAgent], by norm_num [initSt, freshAgent]⟩)).1

/-- C10: `recordReputationEvent` with an event type that is not a key of the
`REPUTATION_EVENTS` table returns `null` and performs no state change at all —
no reputation event row, no score update, no badge, no notification. -/
theorem recordReputationEvent_unknown_noop (st : St) (agentId : Option Nat)
    (eventType : String) (mult : Option ℚ)
    (h : REPUTATION_EVENTS eventType = none) :
    recordReputationEvent st agentId eventType mult = (none, st) := by
  unfold recordReputationEvent
  rw [h]

/-- Witness for C10 at a concrete unknown event type. -/
theorem recordReputationEvent_unknown_noop_witness :
    recordReputationEvent initSt (some 0) "NOT_AN_EVENT" none = (none, initSt) :=
  recordReputationEvent_unknown_noop initSt (some 0) "NOT_AN_EVENT" none (by decide)

/-! ### A concrete lifecycle run

Agent 0 (100 credits) posts a task with reward 30; agent 1 claims, submits,
is rejected by agent 0; agent 1 claims again, submits again, and agent 0
approves.  This is the spec's worked example followed by a re-claim and a
completion. -/

/-- After `POST /tasks` by agent 0 with reward 30. -/
def demoCreate : St :=
  (createTask initSt 0 { title := "t", description := "d", reward := some 30 }).2

/-- After agent 1 claims. -/
def demoClaim : St := (claimTask demoCreate 1).2

/-- After agent 1 submits proof. -/
def demoSubmit : St := (submitWork demoClaim 1 "done").2

/-- After agent 0 rejects the submission. -/
def demoReject : St := (validateWork demoSubmit 0 (some false)).2

/-- After agent 1 claims the reopened task. -/
def demoReclaim : St := (claimTask demoReject 1).2

/-- After agent 1 submits again. -/
def demoResubmit : St := (submitWork demoReclaim 1 "done").2

/-- After agent 0 approves the second submission. -/
def demoApprove : St := (validateWork demoResubmit 0 (some true)).2

/-- C4 (code bug): `recordTransaction` reads the balance *after* the caller
has already applied the mutation and then adds the signed amount again, so
the stored `balance_after` is off by the amount.  Concretely: agent 0 with
100 credits creates a task with reward 30; the resulting balance is 70, but
the `task_escrow` row stores `balance_after = 40` (= 70 + (−30)). -/
theorem recordTransaction_balance_after_double_counts :
    (createTask initSt 0 { title := "t", description := "d", reward := some 30 }).1.isOk = true ∧
    (demoCreate.agents 0).credits = 70 ∧
    demoCreate.txns = [{ agent_id := some 0, ty := "task_escrow", amount := -30,
                         balance_after := 40, related_task := true }] := by
  decide

/-- C3 (code bug): rejecting submitted work does reopen the task with the
worker cleared, bump `tasks_failed`, and apply the −5 `TASK_REJECTED` event,
but it also adds the full reward back to the requester's spendable credits
(`UPDATE agents SET credits = credits + reward`), so the requester who
started at 100 and escrowed 30 holds 100 — not the 70 the spec requires —
even though the recorded transaction claims "escrow maintained". -/
theorem validate_reject_refunds_escrow :
    (validateWork demoSubmit 0 (some false)).1.isOk = true ∧
    demoReject.task.map TaskRec.status = some .open_ ∧
    demoReject.task.map TaskRec.worker_id = some none ∧
    (demoReject.agents 0).credits = 100 ∧
    (demoReject.agents 1).tasks_failed = 1 ∧
    demoReject.repEvents.map (fun e => (e.agent_id, e.event_type)) =
      [(some 1, "TASK_REJECTED")] ∧
    REPUTATION_EVENTS "TASK_REJECTED" = some (-5) := by
  decide

/-- C1 (code bug): a task that goes rejection → re-claim → completion ends in
status `completed` while the sum of the signed amounts of its related
transactions is +30, not 0 (`task_escrow` −30, `escrow_release` +30,
`task_payment` +30): the rejection refunds the escrow but the later
completion pays the worker again, minting 30 credits (requester back at 100,
worker at 130). -/
theorem completed_task_txn_sum_nonzero :
    demoApprove.task.map TaskRec.status = some .completed ∧
    taskTxnSum demoApprove = 30 ∧
    (demoApprove.agents 0).credits = 100 ∧
    (demoApprove.agents 1).credits = 130 ∧
    demoApprove.txns.map Txn.ty = ["task_escrow", "escrow_release", "task_payment"] := by
  decide

theorem repEvents_TASK_COMPLETED (s : St) (a : Option Nat) :
    ((recordReputationEvent s a "TASK_COMPLETED" none).2).repEvents
      = s.repEvents ++ [{ agent_id := a, event_type := "TASK_COMPLETED", points := 3 }] := by
  rw [recordReputationEvent_repEvents_known s a "TASK_COMPLETED" none 3 rfl]
  norm_num [effMult]

theorem repEvents_HIGH_VALUE_TASK (s : St) (a : Option Nat) :
    ((recordReputationEvent s a "HIGH_VALUE_TASK" none).2).repEvents
      = s.repEvents ++ [{ agent_id := a, event_type := "HIGH_VALUE_TASK", points := 2 }] := by
  rw [recordReputationEvent_repEvents_known s a "HIGH_VALUE_TASK" none 2 rfl]
  norm_num [effMult]

theorem repEvents_FIRST_TASK (s : St) (a : Option Nat) :
    ((recordReputationEvent s a "FIRST_TASK" none).2).repEvents
      = s.repEvents ++ [{ agent_id := a, event_type := "FIRST_TASK", points := 5 }] := by
  rw [recordReputationEvent_repEvents_known s a "FIRST_TASK" none 5 rfl]
  norm_num [effMult]

/-- C8: approving submitted work (ValidateWork with `approved = true`, called
by the requester on a task in status `submitted` with worker `w`) credits the
full reward to the worker, increments the worker's completed counter, sets
the task status to `completed`, and appends exactly the reputation events
`TASK_COMPLETED` (+3), plus `HIGH_VALUE_TASK` (+2) exactly when reward ≥ 50,
plus `FIRST_TASK` (+5) exactly when this is the worker's first completion
(completed counter was 0). -/
theorem validateWork_approve (st : St) (agentId w : Nat) (task : TaskRec)
    (ht : st.task = some task) (hst : task.status = .submitted)
    (hw : task.worker_id = some w) (hreq : task.requester_id = agentId) :
    (validateWork st agentId (some true)).1 = .ok () ∧
    (validateWork st agentId (some true)).2.task = some { task with status := .completed } ∧
    ((validateWork st agentId (some true)).2.agents w).credits
      = (st.agents w).credits + task.reward ∧
    ((validateWork st agentId (some true)).2.agents w).tasks_completed
      = (st.agents w).tasks_completed + 1 ∧
    (validateWork st agentId (some true)).2.repEvents
      = st.repEvents
        ++ [{ agent_id := some w, event_type := "TASK_COMPLETED", points := 3 }]
        ++ (if 50 ≤ task.reward then
              [{ agent_id := some w, event_type := "HIGH_VALUE_TASK", points := 2 }]
            else [])
        ++ (if (st.agents w).tasks_completed = 0 then
              [{ agent_id := some w, event_type := "FIRST_TASK", points := 5 }]
            else []) := by
  refine ⟨?_, ?_, ?_, ?_, ?_⟩ <;>
  · by_cases h50 : 50 ≤ task.reward <;> by_cases h0 : (st.agents w).tasks_completed = 0 <;>
      simp [validateWork, ht, hw, hreq, hst, h50, h0, updAgentO, createNotification,
        checkAndAwardBadges_task, checkAndAwardBadges_agents, checkAndAwardBadges_repEvents,
        recordTransaction_agents, recordTransaction_task, recordTransaction_repEvents,
        recordReputationEvent_task, recordReputationEvent_credits,
        recordReputationEvent_tasks_completed,
        repEvents_TASK_COMPLETED, repEvents_HIGH_VALUE_TASK, repEvents_FIRST_TASK]

/-- The submitted task used as the concrete C8 witness input: posted by
agent 0 with reward 60, worker agent 1. -/
def c8Task : TaskRec :=
  { requester_id := 0, worker_id := some 1, reward := 60, status := .submitted,
    proof_submitted := some "p" }

/-- The store holding `c8Task` (used as the concrete C8 witness input). -/
def c8St : St := { initSt with task := some c8Task }

/-- Witness for C8 at a concrete input (reward 60 ≥ 50, first completion). -/
theorem validateWork_approve_witness :
    (validateWork c8St 0 (some true)).1 = .ok () ∧
    (validateWork c8St 0 (some true)).2.task = some { c8Task with status := .completed } ∧
    ((validateWork c8St 0 (some true)).2.agents 1).credits = (c8St.agents 1).credits + 60 ∧
    ((validateWork c8St 0 (some true)).2.agents 1).tasks_completed
      = (c8St.agents 1).tasks_completed + 1 ∧
    (validateWork c8St 0 (some true)).2.repEvents
      = c8St.repEvents
        ++ [{ agent_id := some 1, event_type := "TASK_COMPLETED", points := 3 }]
        ++ (if 50 ≤ c8Task.reward then
              [{ agent_id := some 1, event_type := "HIGH_VALUE_TASK", points := 2 }]
            else [])
        ++ (if (c8St.agents 1).tasks_completed = 0 then
              [{ agent_id := some 1, event_type := "FIRST_TASK", points := 5 }]
            else []) :=
  validateWork_approve c8St 0 1 c8Task rfl rfl rfl rfl

/-- C7: resolving a dispute with decision `split` on a task with worker `w`
(here resolved by the requester, an involved party, so no arbitration fee is
paid) credits `floor(reward/2)` (`Int.fdiv reward 2`) to the requester as
`refund_partial` and `reward − floor(reward/2)` to the worker as
`task_payment_partial`; the two amounts sum to the reward for every reward
value, the task ends `completed`, the dispute becomes `resolved`, and no
reputation events are emitted on the split path. -/
theorem resolveDispute_split (st : St) (agentId dIdx w : Nat) (d : DisputeRec)
    (task : TaskRec)
    (hd : st.disputes.get? dIdx = some d) (hdo : d.status = .open_)
    (ht : st.task = some task) (hw : task.worker_id = some w)
    (hreq : agentId = task.requester_id) (hwr : w ≠ task.requester_id) :
    (resolveDispute st agentId dIdx .split none).1 = .ok () ∧
    (resolveDispute st agentId dIdx .split none).2.task
      = some { task with status := .completed } ∧
    ((resolveDispute st agentId dIdx .split none).2.agents task.requester_id).credits
      = (st.agents task.requester_id).credits + Int.fdiv task.reward 2 ∧
    ((resolveDispute st agentId dIdx .split none).2.agents w).credits
      = (st.agents w).credits + (task.reward - Int.fdiv task.reward 2) ∧
    Int.fdiv task.reward 2 + (task.reward - Int.fdiv task.reward 2) = task.reward ∧
    (resolveDispute st agentId dIdx .split none).2.repEvents = st.repEvents ∧
    ((resolveDispute st agentId dIdx .split none).2.disputes.get? dIdx).map
      DisputeRec.status = some .resolved := by
  have hd' : st.disputes[dIdx]? = some d := by
    rw [← List.get?_eq_getElem?]
    exact hd
  refine ⟨?_, ?_, ?_, ?_, by omega, ?_, ?_⟩ <;>
    simp [resolveDispute, hd', ht, hw, hdo, hreq, updAgentO, Ne.symm hwr, hwr,
      recordTransaction_agents, recordTransaction_task, recordTransaction_repEvents,
      recordTransaction_disputes, List.getElem?_set_self']

/-- The open dispute used as the concrete C7/C9 witness input. -/
def c7Disp : DisputeRec :=
  { raised_by := 1, reason := "bad", status := .open_, resolution := none,
    resolved_by := none }

/-- The disputed task used as the concrete C7/C9 witness input: requester 0,
worker 1, reward 51. -/
def c7Task : TaskRec :=
  { requester_id := 0, worker_id := some 1, reward := 51, status := .disputed,
    proof_submitted := some "p" }

/-- The store used as the concrete C7/C9 witness input (agent 2 has
reputation 90, making it an eligible arbitrator for C9). -/
def c7St : St :=
  { initSt with
    agents := updAgentO initSt.agents (some 2) (fun a => { a with reputation := 90 }),
    task := some c7Task,
    disputes := [c7Disp] }

/-- Witness for C7 at a concrete input: reward 51 splits as 25 + 26. -/
theorem resolveDispute_split_witness :
    (resolveDispute c7St 0 0 .split none).1 = .ok () ∧
    (resolveDispute c7St 0 0 .split none).2.task
      = some { c7Task with status := .completed } ∧
    ((resolveDispute c7St 0 0 .split none).2.agents c7Task.requester_id).credits
      = (c7St.agents c7Task.requester_id).credits + Int.fdiv c7Task.reward 2 ∧
    ((resolveDispute c7St 0 0 .split none).2.agents 1).credits
      = (c7St.agents 1).credits + (c7Task.reward - Int.fdiv c7Task.reward 2) ∧
    Int.fdiv c7Task.reward 2 + (c7Task.reward - Int.fdiv c7Task.reward 2) = c7Task.reward ∧
    (resolveDispute c7St 0 0 .split none).2.repEvents = c7St.repEvents ∧
    ((resolveDispute c7St 0 0 .split none).2.disputes.get? 0).map DisputeRec.status
      = some .resolved :=
  resolveDispute_split c7St 0 0 1 c7Disp c7Task rfl rfl rfl rfl rfl (by decide)

set_option maxHeartbeats 1600000 in
/-- C9: when a dispute on a task (reward ≥ 0, worker `w`) is resolved — with
any of the four decisions — by a non-party arbitrator (reputation ≥ 80, not
the raiser, requester or worker), the arbitrator's balance increases by
exactly `min(10, floor(reward * 0.05))` (= `min 10 (Int.fdiv reward 20)` for
the integer rewards the API admits), and neither the requester's nor the
worker's balance is debited: both end at least at their previous value. -/
theorem resolveDispute_arbitrator_fee (st : St) (agentId dIdx w : Nat)
    (d : DisputeRec) (task : TaskRec) (decision : Decision)
    (hd : st.disputes.get? dIdx = some d) (hdo : d.status = .open_)
    (ht : st.task = some task) (hw : task.worker_id = some w)
    (hrep : 80 ≤ (st.agents agentId).reputation)
    (h1 : agentId ≠ d.raised_by) (h2 : agentId ≠ task.requester_id)
    (h3 : w ≠ agentId) (hwr : w ≠ task.requester_id) (hr : 0 ≤ task.reward) :
    (resolveDispute st agentId dIdx decision none).1 = .ok () ∧
    ((resolveDispute st agentId dIdx decision none).2.agents agentId).credits
      = (st.agents agentId).credits + min 10 (Int.fdiv task.reward 20) ∧
    (st.agents task.requester_id).credits
      ≤ ((resolveDispute st agentId dIdx decision none).2.agents task.requester_id).credits ∧
    (st.agents w).credits
      ≤ ((resolveDispute st agentId dIdx decision none).2.agents w).credits := by
  have hd' : st.disputes[dIdx]? = some d := by
    rw [← List.get?_eq_getElem?]
    exact hd
  have hfee0 : 0 ≤ min 10 (Int.fdiv task.reward 20) := by
    have : 0 ≤ Int.fdiv task.reward 20 := by
      rw [Int.fdiv_eq_ediv _ (by norm_num)]
      exact Int.ediv_nonneg hr (by norm_num)
    omega
  have hhalf0 : 0 ≤ Int.fdiv task.reward 2 := by
    rw [Int.fdiv_eq_ediv _ (by norm_num)]
    exact Int.ediv_nonneg hr (by norm_num)
  have hhalfle : Int.fdiv task.reward 2 ≤ task.reward := by
    rw [Int.fdiv_eq_ediv _ (by norm_num)]
    exact Int.ediv_le_self _ hr
  refine ⟨?_, ?_, ?_, ?_⟩ <;>
    cases decision <;>
      by_cases hfee : 0 < min 10 (Int.fdiv task.reward 20) <;>
        simp [resolveDispute, hd', ht, hw, hdo, hrep, h1, h2, h3, Ne.symm h3, Ne.symm h2,
          hwr, Ne.symm hwr, updAgentO, hfee, recordTransaction_agents, recordTransaction_task,
          recordTransaction_repEvents, recordTransaction_disputes,
          recordReputationEvent_credits, recordReputationEvent_task,
          recordReputationEvent_disputes] <;>
          omega

/-- Witness for C9 at a concrete input: agent 2 (reputation 90, uninvolved)
resolves the dispute over the reward-51 task with decision `cancel` and is
paid min(10, floor(51/20)) = 2. -/
theorem resolveDispute_arbitrator_fee_witness :
    (resolveDispute c7St 2 0 .cancel none).1 = .ok () ∧
    ((resolveDispute c7St 2 0 .cancel none).2.agents 2).credits
      = (c7St.agents 2).credits + min 10 (Int.fdiv c7Task.reward 20) ∧
    (c7St.agents c7Task.requester_id).credits
      ≤ ((resolveDispute c7St 2 0 .cancel none).2.agents c7Task.requester_id).credits ∧
    (c7St.agents 1).credits
      ≤ ((resolveDispute c7St 2 0 .cancel none).2.agents 1).credits :=
  resolveDispute_arbitrator_fee c7St 2 0 1 c7Disp c7Task .cancel rfl rfl rfl rfl
    (by norm_num [c7St, initSt, updAgentO, freshAgent]) (by decide) (by decide)
    (by decide) (by decide) (by decide)

namespace ClaimRace

theorem setPh_task (s : CState) (i : Nat) (p : Phase) : (setPh s i p).task = s.task := rfl

theorem setPh_ph_self (s : CState) (i : Nat) (p : Phase) : (setPh s i p).ph i = p := by
  unfold setPh
  simp

theorem setPh_ph_ne (s : CState) (i j : Nat) (p : Phase) (h : j ≠ i) :
    (setPh s i p).ph j = s.ph j := by
  unfold setPh
  simp [h]

theorem stepOf_ph_ne (i j : Nat) (s : CState) (h : j ≠ i) :
    (stepOf i s).ph j = s.ph j := by
  unfold stepOf
  cases hp : s.ph i <;> (try split_ifs) <;> simp [setPh, h]

theorem stepOf_task_stable (i : Nat) (s : CState) (h : s.task.status ≠ .open_) :
    (stepOf i s).task = s.task := by
  unfold stepOf
  cases hp : s.ph i
  case ready => split_ifs <;> rfl
  case checked =>
    show condClaimUpdate i s.task = s.task
    unfold condClaimUpdate
    rw [if_neg h]
  case updated => split_ifs <;> rfl
  all_goals rfl

theorem run_cons (i : Nat) (l : List Nat) (s : CState) :
    run (i :: l) s = run l (stepOf i s) := rfl

theorem run_append (l₁ l₂ : List Nat) (s : CState) :
    run (l₁ ++ l₂) s = run l₂ (run l₁ s) := by
  unfold run
  rw [List.foldl_append]

theorem run_task_stable (l : List Nat) (s : CState) (h : s.task.status ≠ .open_) :
    (run l s).task = s.task := by
  induction l generalizing s with
  | nil => rfl
  | cons i t ih =>
    have hs : (stepOf i s).task = s.task := stepOf_task_stable i s h
    rw [run_cons, ih (stepOf i s) (by rw [hs]; exact h), hs]

/-- The state invariant: while the task is still `open` no worker is
assigned. -/
def inv (s : CState) : Prop := s.task.status = .open_ → s.task.worker_id = none

theorem stepOf_inv (i : Nat) (s : CState) (h : inv s) : inv (stepOf i s) := by
  unfold stepOf
  cases hp : s.ph i
  case ready => split_ifs <;> exact h
  case checked =>
    show inv { task := condClaimUpdate i s.task, ph := _ }
    unfold inv condClaimUpdate
    split_ifs with hop
    · intro hcl
      simp at hcl
    · exact h
  case updated => split_ifs <;> exact h
  all_goals exact h

theorem run_inv (l : List Nat) (s : CState) (h : inv s) : inv (run l s) := by
  induction l generalizing s with
  | nil => exact h
  | cons i t ih => exact ih (stepOf i s) (stepOf_inv i s h)

theorem run_worker_permanent (l : List Nat) (s : CState) (w : Nat)
    (hinv : inv s) (hw : s.task.worker_id = some w) :
    (run l s).task.worker_id = some w := by
  have hno : s.task.status ≠ .open_ := by
    intro hop
    rw [hinv hop] at hw
    cases hw
  rw [run_task_stable l s hno, hw]

/-- Once the task is permanently `claimed` by `w`, running any schedule
leaves the task unchanged and drives every caller with enough remaining
steps to its final outcome (`finalPhase`). -/
theorem run_claimed_phases (l : List Nat) (s : CState) (w : Nat)
    (hs : s.task.status = .claimed) (hw : s.task.worker_id = some w) (i : Nat)
    (hc : stepsNeeded (s.ph i) ≤ l.count i) :
    (run l s).ph i = finalPhase w i (s.ph i) ∧ (run l s).task = s.task := by
  induction l generalizing s with
  | nil =>
    refine ⟨?_, rfl⟩
    rw [List.count_nil] at hc
    cases hp : s.ph i <;> rw [hp] at hc <;> simp [stepsNeeded] at hc <;>
      simp [run, finalPhase, hp]
  | cons j t ih =>
    rw [run_cons]
    by_cases hj : j = i
    · subst hj
      cases hp : s.ph j with
      | ready =>
        have hstep : stepOf j s = setPh s j .finNotOpen := by
          simp only [stepOf, hp]
          rw [if_pos (by rw [hs]; simp)]
        rw [hstep]
        have h1 := ih (setPh s j .finNotOpen) (by rw [setPh_task]; exact hs)
          (by rw [setPh_task]; exact hw)
          (by rw [setPh_ph_self]; exact Nat.zero_le _)
        rw [setPh_ph_self] at h1
        rw [setPh_task] at h1
        exact ⟨by rw [h1.1]; simp [finalPhase], h1.2⟩
      | checked =>
        have hcond : condClaimUpdate j s.task = s.task := by
          unfold condClaimUpdate
          rw [if_neg (by rw [hs]; simp)]
        have htask : (stepOf j s).task = s.task := by
          have hx : (stepOf j s).task = condClaimUpdate j s.task := by
            simp only [stepOf, hp]
          rw [hx, hcond]
        have hph2 : (stepOf j s).ph j = Phase.updated := by
          simp only [stepOf, hp]
          simp
        have h1 := ih (stepOf j s) (by rw [htask]; exact hs) (by rw [htask]; exact hw) ?_
        · rw [hph2, htask] at h1
          exact ⟨by rw [h1.1]; simp [finalPhase], h1.2⟩
        · rw [hph2]
          rw [hp, List.count_cons_self] at hc
          simp only [stepsNeeded] at hc ⊢
          omega
      | updated =>
        by_cases hjw : w = j
        · have hstep : stepOf j s = setPh s j .finSuccess := by
            simp only [stepOf, hp]
            rw [if_pos ⟨hs, by rw [hw, hjw]⟩]
          rw [hstep]
          have h1 := ih (setPh s j .finSuccess) (by rw [setPh_task]; exact hs)
            (by rw [setPh_task]; exact hw)
            (by rw [setPh_ph_self]; exact Nat.zero_le _)
          rw [setPh_ph_self] at h1
          rw [setPh_task] at h1
          exact ⟨by rw [h1.1]; simp [finalPhase, hjw], h1.2⟩
        · have hstep : stepOf j s = setPh s j .finConflict := by
            simp only [stepOf, hp]
            rw [if_neg]
            intro hcon
            rw [hw] at hcon
            exact hjw (Option.some.inj hcon.2)
          rw [hstep]
          have h1 := ih (setPh s j .finConflict) (by rw [setPh_task]; exact hs)
            (by rw [setPh_task]; exact hw)
            (by rw [setPh_ph_self]; exact Nat.zero_le _)
          rw [setPh_ph_self] at h1
          rw [setPh_task] at h1
          refine ⟨?_, h1.2⟩
          rw [h1.1]
          simp only [finalPhase]
          rw [if_neg (fun hjw2 => hjw hjw2.symm)]
      | finSuccess =>
        have hstep : stepOf j s = s := by
          simp only [stepOf, hp]
        rw [hstep]
        have h := ih s hs hw (by rw [hp]; exact Nat.zero_le _)
        rw [hp] at h
        exact h
      | finConflict =>
        have hstep : stepOf j s = s := by
          simp only [stepOf, hp]
        rw [hstep]
        have h := ih s hs hw (by rw [hp]; exact Nat.zero_le _)
        rw [hp] at h
        exact h
      | finNotOpen =>
        have hstep : stepOf j s = s := by
          simp only [stepOf, hp]
        rw [hstep]
        have h := ih s hs hw (by rw [hp]; exact Nat.zero_le _)
        rw [hp] at h
        exact h
      | finOwnTask =>
        have hstep : stepOf j s = s := by
          simp only [stepOf, hp]
        rw [hstep]
        have h := ih s hs hw (by rw [hp]; exact Nat.zero_le _)
        rw [hp] at h
        exact h
    · have h1 : (stepOf j s).ph i = s.ph i := stepOf_ph_ne j i s (Ne.symm hj)
      have h2 : (stepOf j s).task = s.task := stepOf_task_stable j s (by rw [hs]; simp)
      have h3 := ih (stepOf j s) (by rw [h2]; exact hs) (by rw [h2]; exact hw)
        (by rw [h1]; rwa [List.count_cons_of_ne (Ne.symm hj) t] at hc)
      rw [h1, h2] at h3
      exact h3

/-- Running all precondition reads first (one per caller, callers distinct
and none of them the requester, task still `open`): the task is untouched
and every racing caller reaches phase `checked`. -/
theorem run_checks (cs : List Nat) (s : CState)
    (hnd : cs.Nodup) (hreq : s.task.requester_id ∉ cs)
    (hopen : s.task.status = .open_) (hph : ∀ i ∈ cs, s.ph i = .ready) :
    (run cs s).task = s.task ∧
    ∀ j : Nat, (run cs s).ph j = if j ∈ cs then Phase.checked else s.ph j := by
  induction cs generalizing s with
  | nil =>
    refine ⟨rfl, ?_⟩
    intro j
    simp [run]
  | cons i t ih =>
    have hpi : s.ph i = .ready := hph i (List.mem_cons_self i t)
    have hstep : stepOf i s = setPh s i .checked := by
      simp only [stepOf, hpi]
      rw [if_neg (by rw [hopen]; simp), if_neg]
      intro hri
      exact hreq (by rw [hri]; exact List.mem_cons_self i t)
    rw [run_cons, hstep]
    have hnd' := (List.nodup_cons.mp hnd).2
    have hint : i ∉ t := (List.nodup_cons.mp hnd).1
    have h1 := ih (setPh s i .checked) hnd'
      (by rw [setPh_task]; intro hm; exact hreq (List.mem_cons_of_mem i hm))
      (by rw [setPh_task]; exact hopen)
      (fun j hj => by
        rw [setPh_ph_ne s i j _ (fun hji => hint (hji ▸ hj))]
        exact hph j (List.mem_cons_of_mem i hj))
    refine ⟨by rw [h1.1, setPh_task], ?_⟩
    intro j
    rw [h1.2 j]
    by_cases hjt : j ∈ t
    · simp [hjt, List.mem_cons_of_mem i hjt]
    · by_cases hji : j = i
      · subst hji
        simp [hjt, setPh_ph_self, List.mem_cons_self]
      · rw [setPh_ph_ne s i j _ hji]
        simp [hjt, hji, List.mem_cons]

end ClaimRace

namespace ClaimRace

/-- C2: N distinct agents (none of them the requester) racing to claim the
same `open` task.  The schedule `cs ++ rest` lets every caller perform its
precondition read while the task is still open (`cs` lists the N distinct
callers once), then interleaves the conditional updates and read-back
verifications arbitrarily (`rest`, ≥ 2 remaining steps per caller).  Exactly
one caller `w` ends `finSuccess` with the task `claimed` by `w`; every other
caller ends with 409 Conflict (`finConflict`; its conditional update was a
no-op, so it had no side effect on the task).  Moreover — second conjunct,
over *arbitrary* schedules — once the task's worker is assigned it never
changes, so the task never has two distinct workers. -/
theorem claim_race_exactly_one_winner (r : Nat) (reward : Int) (cs rest : List Nat)
    (hnd : cs.Nodup) (hr : r ∉ cs) (hrest : ∀ i ∈ rest, i ∈ cs)
    (hcount : ∀ i ∈ cs, 2 ≤ rest.count i) (hne : cs ≠ []) :
    (∃ w, w ∈ cs ∧
      (run (cs ++ rest) (initRace r reward)).task.status = .claimed ∧
      (run (cs ++ rest) (initRace r reward)).task.worker_id = some w ∧
      (run (cs ++ rest) (initRace r reward)).ph w = Phase.finSuccess ∧
      ∀ i ∈ cs, i ≠ w →
        (run (cs ++ rest) (initRace r reward)).ph i = Phase.finConflict) ∧
    (∀ (l₁ l₂ : List Nat) (w : Nat),
      (run l₁ (initRace r reward)).task.worker_id = some w →
      (run (l₁ ++ l₂) (initRace r reward)).task.worker_id = some w) := by
  constructor
  · obtain ⟨j, rest2, hrestEq⟩ : ∃ j rest2, rest = j :: rest2 := by
      cases rest with
      | nil =>
        obtain ⟨i0, hi0⟩ := List.exists_mem_of_ne_nil cs hne
        have h2c := hcount i0 hi0
        rw [List.count_nil] at h2c
        omega
      | cons j rest2 => exact ⟨j, rest2, rfl⟩
    subst hrestEq
    have h0open : (initRace r reward).task.status = .open_ := rfl
    have hchk := run_checks cs (initRace r reward) hnd hr h0open (fun i _ => rfl)
    have hjcs : j ∈ cs := hrest j (List.mem_cons_self j rest2)
    have hs1ph : (run cs (initRace r reward)).ph j = Phase.checked := by
      rw [hchk.2 j]
      simp [hjcs]
    have hs1status : (run cs (initRace r reward)).task.status = .open_ := by
      rw [hchk.1]
      rfl
    have hcond : condClaimUpdate j (run cs (initRace r reward)).task
        = { (run cs (initRace r reward)).task with status := .claimed, worker_id := some j } := by
      unfold condClaimUpdate
      rw [if_pos hs1status]
    have hstep : stepOf j (run cs (initRace r reward))
        = { task := condClaimUpdate j (run cs (initRace r reward)).task, ph := fun k => if k = j then Phase.updated else (run cs (initRace r reward)).ph k } := by
      simp only [stepOf, hs1ph]
    have hs2status : (stepOf j (run cs (initRace r reward))).task.status = TaskStatus.claimed := by
      rw [hstep]
      show (condClaimUpdate j (run cs (initRace r reward)).task).status = TaskStatus.claimed
      rw [hcond]
    have hs2worker : (stepOf j (run cs (initRace r reward))).task.worker_id = some j := by
      rw [hstep]
      show (condClaimUpdate j (run cs (initRace r reward)).task).worker_id = some j
      rw [hcond]
    have hs2phj : (stepOf j (run cs (initRace r reward))).ph j = Phase.updated := by
      rw [hstep]
      simp
    have hcnt1 : stepsNeeded ((stepOf j (run cs (initRace r reward))).ph j)
        ≤ rest2.count j := by
      rw [hs2phj]
      have h2c := hcount j hjcs
      rw [List.count_cons_self] at h2c
      simp only [stepsNeeded]
      omega
    have hwin := run_claimed_phases rest2 (stepOf j (run cs (initRace r reward))) j
      hs2status hs2worker j hcnt1
    refine ⟨j, hjcs, ?_, ?_, ?_, ?_⟩
    · rw [run_append, run_cons, hwin.2, hs2status]
    · rw [run_append, run_cons, hwin.2, hs2worker]
    · rw [run_append, run_cons, hwin.1, hs2phj]
      simp [finalPhase]
    · intro i hics hij
      have hs2phi : (stepOf j (run cs (initRace r reward))).ph i = Phase.checked := by
        rw [stepOf_ph_ne j i _ (fun hx => hij (by rw [hx]))]
        rw [hchk.2 i]
        simp [hics]
      have hcnt2 : stepsNeeded ((stepOf j (run cs (initRace r reward))).ph i)
          ≤ rest2.count i := by
        rw [hs2phi]
        have h2c := hcount i hics
        rw [List.count_cons_of_ne (fun hx => hij (by rw [hx])) rest2] at h2c
        simp only [stepsNeeded]
        omega
      have hlose := run_claimed_phases rest2 (stepOf j (run cs (initRace r reward))) j
        hs2status hs2worker i hcnt2
      rw [run_append, run_cons, hlose.1, hs2phi]
      simp only [finalPhase]
      rw [if_neg hij]
  · intro l₁ l₂ w hw
    rw [run_append]
    exact run_worker_permanent l₂ _ w (run_inv l₁ _ (fun _ => rfl)) hw

/-- Witness for C2 at a concrete input: requester 0, reward 30, callers 1 and
2, both checking first and then racing through update and verification. -/
theorem claim_race_exactly_one_winner_witness :
    (∃ w, w ∈ [1, 2] ∧
      (run ([1, 2] ++ [1, 2, 1, 2]) (initRace 0 30)).task.status = .claimed ∧
      (run ([1, 2] ++ [1, 2, 1, 2]) (initRace 0 30)).task.worker_id = some w ∧
      (run ([1, 2] ++ [1, 2, 1, 2]) (initRace 0 30)).ph w = Phase.finSuccess ∧
      ∀ i ∈ [1, 2], i ≠ w →
        (run ([1, 2] ++ [1, 2, 1, 2]) (initRace 0 30)).ph i = Phase.finConflict) ∧
    (∀ (l₁ l₂ : List Nat) (w : Nat),
      (run l₁ (initRace 0 30)).task.worker_id = some w →
      (run (l₁ ++ l₂) (initRace 0 30)).task.worker_id = some w) :=
  claim_race_exactly_one_winner 0 30 [1, 2] [1, 2, 1, 2] (by decide) (by decide)
    (by decide) (by decide) (by decide)

end ClaimRace

/-- C5 counterexample: a numeric reward below 1 does *not* fail with
`InvalidInput`.  Agent 0 (100 credits) posts with reward −5: `sanitizeInt`
clamps −5 up to the minimum 1, the `reward < 1` check passes, and the task is
created with reward 1. -/
theorem createTask_negative_reward_not_rejected :
    (createTask initSt 0 { title := "t", description := "d", reward := some (-5) }).1.isOk
      = true ∧
    ((createTask initSt 0 { title := "t", description := "d", reward := some (-5) }).2.task.map TaskRec.reward) = some 1 := by
  decide

/-- C5 (amended): CreateTask fails (with the state unchanged — no task row,
no credit movement) when the title, description or reward is missing / empty
/ the number 0, when the reward input does not parse to an integer (only then
does the `reward < 1` InvalidInput check fire, because `sanitizeInt` turns an
unparsable value into 0), or with InsufficientCredits when the requester's
balance is below the sanitized (min-1-clamped) reward; a parsed reward below
1 is clamped up to 1 and — balance permitting — the task is created with
reward 1 instead of failing. -/
theorem sanitizeInt_some_min_max (n m M : Int) (d : Option Int) :
    sanitizeInt (some n) (some m) (some M) d
      = if n < m then m else if M < n then M else n := rfl

theorem createTask_validation (st : St) (agentId : Nat) (inp : CreateInput) :
    (∀ (e : ApiErr) (st2 : St), createTask st agentId inp = (.error e, st2) → st2 = st) ∧
    ((inp.title = "" ∨ inp.description = "" ∨ inp.reward = some 0) →
      (createTask st agentId inp).1 = .error .missingFields) ∧
    (inp.reward = none → inp.title ≠ "" → inp.description ≠ "" →
      ¬((sanitizeTitle inp.title).length < 1) →
      ¬((sanitizeDescription inp.description).length < 1) →
      (createTask st agentId inp).1 = .error .rewardTooLow) ∧
    (∀ n : Int, inp.reward = some n →
      (createTask st agentId inp).1 ≠ .error .rewardTooLow) ∧
    (∀ n : Int, inp.reward = some n → n ≠ 0 → inp.title ≠ "" → inp.description ≠ "" →
      ¬((sanitizeTitle inp.title).length < 1) →
      ¬((sanitizeDescription inp.description).length < 1) →
      (st.agents agentId).credits < sanitizeInt inp.reward (some 1) (some 1000000) none →
      (createTask st agentId inp).1 = .error .insufficientCredits) ∧
    (∀ n : Int, inp.reward = some n → n ≠ 0 → n < 1 → inp.title ≠ "" → inp.description ≠ "" →
      ¬((sanitizeTitle inp.title).length < 1) →
      ¬((sanitizeDescription inp.description).length < 1) →
      1 ≤ (st.agents agentId).credits →
      (createTask st agentId inp).1 = .ok () ∧
      ((createTask st agentId inp).2.task.map TaskRec.reward) = some 1 ∧
      ((createTask st agentId inp).2.task.map TaskRec.status) = some .open_) := by
  refine ⟨?_, ?_, ?_, ?_, ?_, ?_⟩
  · intro e st2 h
    simp only [createTask] at h
    split_ifs at h <;>
      first
        | (injection h with h1 h2; exact h2.symm)
        | (injection h with h1 h2; exact Except.noConfusion h1)
  · intro h
    simp only [createTask]
    rw [if_pos]
    rcases h with h | h | h <;> simp [h, rawRewardTruthy]
  · intro hr hT hD hTL hDL
    simp only [createTask]
    rw [if_neg, if_neg hTL, if_neg hDL, if_pos]
    · rw [hr]; decide
    · simp [hr, hT, hD, rawRewardTruthy]
  · intro n hr h
    simp only [createTask] at h
    split_ifs at h with h1 h2 h3 h4 h5 <;> simp_all
    rw [sanitizeInt_some_min_max] at h4
    split_ifs at h4 <;> omega
  · intro n hr hn hT hD hTL hDL hC
    simp only [createTask]
    rw [if_neg, if_neg hTL, if_neg hDL, if_neg, if_pos hC]
    · rw [hr, sanitizeInt_some_min_max]
      split_ifs <;> omega
    · simp [hr, hT, hD, rawRewardTruthy, hn]
  · intro n hr hn hlt hT hD hTL hDL hC
    have hSan : sanitizeInt inp.reward (some 1) (some 1000000) none = 1 := by
      rw [hr, sanitizeInt_some_min_max]
      rw [if_pos hlt]
    have hRlt : ¬(sanitizeInt inp.reward (some 1) (some 1000000) none < 1) := by
      rw [hSan]
      omega
    have hCred : ¬((st.agents agentId).credits
        < sanitizeInt inp.reward (some 1) (some 1000000) none) := by
      rw [hSan]
      omega
    have hCond1 : ¬(inp.title = "" ∨ inp.description = ""
        ∨ rawRewardTruthy inp.reward = false) := by
      simp [hr, hT, hD, rawRewardTruthy, hn]
    refine ⟨?_, ?_, ?_⟩
    · simp only [createTask]
      rw [if_neg hCond1, if_neg hTL, if_neg hDL, if_neg hRlt, if_neg hCred]
    · simp only [createTask]
      rw [if_neg hCond1, if_neg hTL, if_neg hDL, if_neg hRlt, if_neg hCred]
      simp [checkAndAwardBadges_task, recordTransaction_task, hSan]
    · simp only [createTask]
      rw [if_neg hCond1, if_neg hTL, if_neg hDL, if_neg hRlt, if_neg hCred]
      simp [checkAndAwardBadges_task, recordTransaction_task]

/-- Witness for the amended C5 at a concrete input: reward −7 with ample
balance creates the task with reward 1. -/
theorem createTask_validation_witness :
    (createTask initSt 0 { title := "x", description := "y", reward := some (-7) }).1 = .ok () ∧
    ((createTask initSt 0 { title := "x", description := "y", reward := some (-7) }).2.task.map TaskRec.reward) = some 1 ∧
    ((createTask initSt 0 { title := "x", description := "y", reward := some (-7) }).2.task.map TaskRec.status) = some .open_ :=
  (createTask_validation initSt 0 { title := "x", description := "y", reward := some (-7) }).2.2.2.2.2
    (-7) rfl (by decide) (by decide) (by decide) (by decide) (by decide) (by decide) (by decide)

end ThePit
